import Mathlib

/-
Verification of the blocker lifecycle layer of react-action-guard-tanstack.

The development shallowly embeds the blocking hooks of the repository:
  - the external registry operations (addBlocker / updateBlocker / removeBlocker),
    modelled from the contract in the specification, since the store itself is an
    external collaborator of this package;
  - useBlockingManager (src internal manager, current revision): its effect body and
    its cleanup, as transition functions on a manager state that carries the private
    wasBlocked flag and the registry, sequenced both as the spec contract reads
    (body per render, cleanup once at teardown) and as the React host really runs
    them (the previous cleanup before every re-run of the effect);
  - resolveBlockingReason (src utils);
  - the blocker id helpers built on the canonical key hash;
  - the shouldBlock derivations of the four adapter hooks.
-/

namespace ActionGuard

/-- Scope of a blocker: a single scope string or a read-only array of scopes
(source type: string | ReadonlyArray of string). -/
inductive Scope where
  | single (s : String)
  | many (ss : List String)
deriving DecidableEq, Repr

/-- Modelled from the spec: one BlockerMetadata entry of the external registry.
The registry stores scope, reason and priority, the optional timeout and onTimeout
callback (the callback is represented by an opaque numeric token), and the moment of
creation, because the spec states that the timeout countdown starts at the moment the
entry is created and is never restarted by a metadata update. -/
structure BlockerEntry where
  scope : Option Scope
  reason : String
  priority : Int
  timeout : Option Nat
  onTimeout : Option Nat
  createdAt : Nat
deriving DecidableEq, Repr

/-- The external registry, keyed by blocker identity; at most one entry per identity,
so a map from identity to an optional entry. -/
def Registry : Type := String → Option BlockerEntry

/-- Modelled from the spec: addBlocker(id, meta) creates (or replaces) the entry for
id; the timeout clock of the new entry starts now. -/
def addBlocker (r : Registry) (id : String) (e : BlockerEntry) : Registry :=
  fun j => if j = id then some e else r j

/-- Modelled from the spec: updateBlocker(id, partialMeta) updates scope, reason and
priority of the existing entry in place, leaving timeout, onTimeout and the creation
moment untouched; it does nothing when no entry for id exists. -/
def updateBlocker (r : Registry) (id : String) (scope : Option Scope)
    (reason : String) (priority : Int) : Registry :=
  fun j =>
    if j = id then
      (r j).map (fun e =>
        { e with scope := scope, reason := reason, priority := priority })
    else r j

/-- Modelled from the spec: removeBlocker(id) deletes the entry for id. -/
def removeBlocker (r : Registry) (id : String) : Registry :=
  fun j => if j = id then none else r j

/-- The arguments of one synchronize call of useBlockingManager
(UseBlockingManagerOptions of the source: blockerId, shouldBlock, scope, reason,
priority, timeout, onTimeout). -/
structure SyncInput where
  blockerId : String
  shouldBlock : Bool
  scope : Option Scope
  reason : String
  priority : Int
  timeout : Option Nat
  onTimeout : Option Nat
deriving DecidableEq, Repr

/-- The state owned by one useBlockingManager instance: the private wasBlockedRef
flag together with the registry it mutates. -/
structure ManagerState where
  wasBlocked : Bool
  registry : Registry

/-- The effect body of useBlockingManager (current revision of the source): if
shouldBlock holds then update when the flag is set, otherwise add and set the flag;
if shouldBlock fails and the flag is set then remove and clear the flag; otherwise do
nothing. The parameter now is the moment of the call; it only stamps the creation
moment of a freshly added entry. -/
def syncEffect (inp : SyncInput) (now : Nat) (s : ManagerState) : ManagerState :=
  if inp.shouldBlock then
    if s.wasBlocked then
      { s with
        registry := updateBlocker s.registry inp.blockerId inp.scope inp.reason inp.priority }
    else
      { wasBlocked := true
        registry := addBlocker s.registry inp.blockerId
          { scope := inp.scope, reason := inp.reason, priority := inp.priority
            timeout := inp.timeout, onTimeout := inp.onTimeout, createdAt := now } }
  else
    if s.wasBlocked then
      { wasBlocked := false, registry := removeBlocker s.registry inp.blockerId }
    else s

/-- The teardown cleanup of useBlockingManager: if the flag is set, remove the entry
and clear the flag, regardless of the last seen shouldBlock value. -/
def cleanupEffect (blockerId : String) (s : ManagerState) : ManagerState :=
  if s.wasBlocked then
    { wasBlocked := false, registry := removeBlocker s.registry blockerId }
  else s

/-- Modelled from the spec: the synchronize sequencing of the manager contract — the
effect body invoked on every render where the tracked inputs changed, and the cleanup
exactly once at teardown. The React host actually interposes the cleanup of the
previous run before every re-run of the effect (see runReact), so this sequencing
expresses the spec intent for the body logic, not the observed program behavior. -/
def runContract (t : Nat) (s : ManagerState) : List SyncInput → ManagerState
  | [] => s
  | inp :: rest => runContract (t + 1) (syncEffect inp t s) rest

/-- The sequencing the React host really executes for a sequence of effect runs of
one instance: every input in the deps array of the effect, so on every re-run the
cleanup of the previous run (closing over the previous blockerId) executes first,
then the new effect body; the cleanup of the final run is the teardown and is applied
by the caller. Calls are stamped with successive moments starting at t. -/
def runReact (t : Nat) (s : ManagerState) : List SyncInput → ManagerState
  | [] => s
  | [c] => syncEffect c t s
  | c :: d :: rest =>
    runReact (t + 1) (cleanupEffect c.blockerId (syncEffect c t s)) (d :: rest)

/-- One condition and its optional specific reason, as consumed by
resolveBlockingReason (ReasonConfig.stateReasons element of the source). -/
structure StateReason where
  condition : Bool
  reason : Option String
deriving DecidableEq, Repr

/-- The argument record of resolveBlockingReason (ReasonConfig of the source). -/
structure ReasonConfig where
  defaultReason : String
  stateReasons : List StateReason
deriving DecidableEq, Repr

/-- The scan loop of resolveBlockingReason: return the reason of the first element
whose condition is true and whose reason is defined. -/
def resolveLoop (defaultReason : String) : List StateReason → String
  | [] => defaultReason
  | sr :: rest =>
    match sr.condition, sr.reason with
    | true, some r => r
    | _, _ => resolveLoop defaultReason rest

/-- resolveBlockingReason from the source utils: scan stateReasons in order and fall
back to defaultReason. -/
def resolveBlockingReason (config : ReasonConfig) : String :=
  resolveLoop config.defaultReason config.stateReasons

/-- One part of a query or mutation key: a JSON-like value made of primitives, arrays
and plain objects (an object is its ordered list of name and value fields). -/
inductive KeyPart where
  | null
  | bool (b : Bool)
  | num (n : Int)
  | str (s : String)
  | arr (elems : List KeyPart)
  | obj (fields : List (String × KeyPart))

/-- Sort the fields of an object by field name, as Object.keys(val).sort() does in
the canonical key hash. -/
def sortFields (l : List (String × KeyPart)) : List (String × KeyPart) :=
  List.insertionSort (fun f g => f.1 ≤ g.1) l

mutual
/-- Modelled from the spec: the canonicalization step of the deterministic identity
constructor (hashKey of the query engine); it rewrites every plain object so that its
fields stand in sorted name order, making the result independent of property
insertion order. -/
def canonicalize : KeyPart → KeyPart
  | .null => .null
  | .bool b => .bool b
  | .num n => .num n
  | .str s => .str s
  | .arr elems => .arr (canonicalizeList elems)
  | .obj fields => .obj (sortFields (canonicalizeFields fields))

/-- Canonicalize every element of an array. -/
def canonicalizeList : List KeyPart → List KeyPart
  | [] => []
  | e :: rest => canonicalize e :: canonicalizeList rest

/-- Canonicalize the value of every field of an object, keeping the names. -/
def canonicalizeFields : List (String × KeyPart) → List (String × KeyPart)
  | [] => []
  | f :: rest => (f.1, canonicalize f.2) :: canonicalizeFields rest
end

mutual
/-- Modelled from the spec: the stable serialization of an already canonicalized key
part (the JSON.stringify step of hashKey). -/
def serialize : KeyPart → String
  | .null => "null"
  | .bool true => "true"
  | .bool false => "false"
  | .num n => toString n
  | .str s => "\"" ++ s ++ "\""
  | .arr elems => "[" ++ serializeList elems ++ "]"
  | .obj fields => "\x7b" ++ serializeFields fields ++ "\x7d"

/-- Serialize the elements of an array, comma separated. -/
def serializeList : List KeyPart → String
  | [] => ""
  | [e] => serialize e
  | e :: rest => serialize e ++ "," ++ serializeList rest

/-- Serialize the fields of an object, comma separated. -/
def serializeFields : List (String × KeyPart) → String
  | [] => ""
  | [f] => "\"" ++ f.1 ++ "\":" ++ serialize f.2
  | f :: rest => "\"" ++ f.1 ++ "\":" ++ serialize f.2 ++ "," ++ serializeFields rest
end

/-- Modelled from the spec: hashKey of the query engine, the canonical stable hash of
a whole key (a key is an ordered sequence of parts), independent of object property
insertion order. -/
def hashKey (queryKey : List KeyPart) : String :=
  serialize (canonicalize (.arr queryKey))

/-- useQueryBlockerId from the source internals: the deterministic blocker id, the
given id namespace followed by a dash and the canonical hash of the key. -/
def useQueryBlockerId (pre : String) (queryKey : List KeyPart) : String :=
  pre ++ "-" ++ hashKey queryKey

/-- useRandomBlockerId from the source internals: returns the useId token of the
component instance, which the host framework guarantees to be stable across renders
of one instance and distinct across instances. The token is a parameter of the
model. -/
def useRandomBlockerId (instanceToken : String) : String :=
  instanceToken

/-- useMutationBlockerId from the source internals: with a mutation key it is the
deterministic id from the canonical hash; without one it falls back to the per
instance useId token. -/
def useMutationBlockerId (pre : String) (mutationKey : Option (List KeyPart))
    (randomId : String) : String :=
  match mutationKey with
  | some k => pre ++ "-" ++ hashKey k
  | none => pre ++ "-" ++ randomId

mutual
/-- Structural equality of keys: primitives equal as values, arrays equal pointwise,
and plain objects equal regardless of the insertion order of their properties (some
reordering of the second object matches the first pointwise, by equal names and
structurally equal values; object field names are assumed distinct, as they are in
the source language). -/
inductive KeyEquiv : KeyPart → KeyPart → Prop where
  | null : KeyEquiv .null .null
  | bool (b : Bool) : KeyEquiv (.bool b) (.bool b)
  | num (n : Int) : KeyEquiv (.num n) (.num n)
  | str (s : String) : KeyEquiv (.str s) (.str s)
  | arr {as bs : List KeyPart} : KeyEquivList as bs → KeyEquiv (.arr as) (.arr bs)
  | obj {fs gs ks : List (String × KeyPart)} :
      KeyEquivFields fs ks → ks.Perm gs → (fs.map Prod.fst).Nodup →
      KeyEquiv (.obj fs) (.obj gs)

/-- Pointwise structural equality of key sequences. -/
inductive KeyEquivList : List KeyPart → List KeyPart → Prop where
  | nil : KeyEquivList [] []
  | cons {a b : KeyPart} {as bs : List KeyPart} :
      KeyEquiv a b → KeyEquivList as bs → KeyEquivList (a :: as) (b :: bs)

/-- Pointwise equality of object field lists: equal names, structurally equal
values. -/
inductive KeyEquivFields :
    List (String × KeyPart) → List (String × KeyPart) → Prop where
  | nil : KeyEquivFields [] []
  | cons {f g : String × KeyPart} {fs gs : List (String × KeyPart)} :
      f.1 = g.1 → KeyEquiv f.2 g.2 → KeyEquivFields fs gs →
      KeyEquivFields (f :: fs) (g :: gs)
end

/-- Observed state of a single read operation, the fields useBlockingQuery reads. -/
structure QueryState where
  isLoading : Bool
  isFetching : Bool
  isError : Bool
deriving DecidableEq, Repr

/-- Observed state of a paginated read operation, the fields
useBlockingInfiniteQuery reads. -/
structure InfiniteQueryState where
  isLoading : Bool
  isFetching : Bool
  isFetchingNextPage : Bool
  isFetchingPreviousPage : Bool
  isError : Bool
deriving DecidableEq, Repr

/-- Observed state of a write operation, the fields useBlockingMutation reads. -/
structure MutationState where
  isPending : Bool
  isError : Bool
deriving DecidableEq, Repr

/-- QueryBlockingConfig of the source: every field optional, defaults applied where
the hook destructures the record. -/
structure QueryBlockingConfig where
  scope : Option Scope
  reason : Option String
  reasonOnLoading : Option String
  reasonOnFetching : Option String
  reasonOnError : Option String
  priority : Option Int
  timeout : Option Nat
  onTimeout : Option Nat
  onLoading : Option Bool
  onFetching : Option Bool
  onError : Option Bool
deriving DecidableEq, Repr

/-- InfiniteQueryBlockingConfig of the source, same optional fields as the single
read configuration. -/
structure InfiniteQueryBlockingConfig where
  scope : Option Scope
  reason : Option String
  reasonOnLoading : Option String
  reasonOnFetching : Option String
  reasonOnError : Option String
  priority : Option Int
  timeout : Option Nat
  onTimeout : Option Nat
  onLoading : Option Bool
  onFetching : Option Bool
  onError : Option Bool
deriving DecidableEq, Repr

/-- QueriesBlockingConfig of the source, the shared configuration of a parallel read
batch. -/
structure QueriesBlockingConfig where
  scope : Option Scope
  reason : Option String
  reasonOnLoading : Option String
  reasonOnFetching : Option String
  reasonOnError : Option String
  priority : Option Int
  timeout : Option Nat
  onTimeout : Option Nat
  onLoading : Option Bool
  onFetching : Option Bool
  onError : Option Bool
deriving DecidableEq, Repr

/-- MutationBlockingConfig of the source: a discriminated union. The variant without
error blocking carries onError as an optional false and no reasonOnError field; the
variant with error blocking carries onError true and may carry reasonOnError. -/
inductive MutationBlockingConfig where
  | withoutError (scope : Option Scope) (priority : Option Int)
      (reason : Option String) (reasonOnPending : Option String)
      (timeout : Option Nat) (onTimeout : Option Nat)
  | withError (scope : Option Scope) (priority : Option Int)
      (reason : Option String) (reasonOnPending : Option String)
      (reasonOnError : Option String) (timeout : Option Nat) (onTimeout : Option Nat)
deriving DecidableEq, Repr

/-- The onError toggle as the hook destructures it: default false, so false on the
variant without error blocking and true on the variant with it. -/
def MutationBlockingConfig.onError : MutationBlockingConfig → Bool
  | .withoutError .. => false
  | .withError .. => true

/-- The shouldBlock derivation of useBlockingQuery: loading gated by onLoading
(default true), background fetching excluding loading gated by onFetching (default
false), error gated by onError (default false). -/
def useBlockingQuery_shouldBlock (cfg : QueryBlockingConfig) (q : QueryState) : Bool :=
  (cfg.onLoading.getD true && q.isLoading) ||
    (cfg.onFetching.getD false && q.isFetching && !q.isLoading) ||
    (cfg.onError.getD false && q.isError)

/-- The fetching condition of useBlockingInfiniteQuery: any of background refresh,
next page fetch or previous page fetch, excluding the initial loading. -/
def isFetchingButNotLoading (q : InfiniteQueryState) : Bool :=
  (q.isFetching || q.isFetchingNextPage || q.isFetchingPreviousPage) && !q.isLoading

/-- The shouldBlock derivation of useBlockingInfiniteQuery. -/
def useBlockingInfiniteQuery_shouldBlock (cfg : InfiniteQueryBlockingConfig)
    (q : InfiniteQueryState) : Bool :=
  (cfg.onLoading.getD true && q.isLoading) ||
    (cfg.onFetching.getD false && isFetchingButNotLoading q) ||
    (cfg.onError.getD false && q.isError)

/-- The member counts of useBlockingQueries over the batch results. -/
def loadingCount (results : List QueryState) : Nat :=
  (results.filter (fun r => r.isLoading)).length

/-- Count of members fetching but not loading. -/
def fetchingCount (results : List QueryState) : Nat :=
  (results.filter (fun r => r.isFetching && !r.isLoading)).length

/-- Count of members in error. -/
def errorCount (results : List QueryState) : Nat :=
  (results.filter (fun r => r.isError)).length

/-- The shouldBlock derivation of useBlockingQueries over the whole batch. -/
def useBlockingQueries_shouldBlock (cfg : QueriesBlockingConfig)
    (results : List QueryState) : Bool :=
  (cfg.onLoading.getD true && decide (0 < loadingCount results)) ||
    (cfg.onFetching.getD false && decide (0 < fetchingCount results)) ||
    (cfg.onError.getD false && decide (0 < errorCount results))

/-- The reason derivation of useBlockingQueries. -/
def useBlockingQueries_reason (cfg : QueriesBlockingConfig)
    (results : List QueryState) : String :=
  resolveBlockingReason
    { defaultReason := cfg.reason.getD "Loading queries..."
      stateReasons :=
        [ { condition := decide (0 < loadingCount results), reason := cfg.reasonOnLoading }
        , { condition := decide (0 < fetchingCount results), reason := cfg.reasonOnFetching }
        , { condition := decide (0 < errorCount results), reason := cfg.reasonOnError } ] }

/-- The single synchronize payload useBlockingQueries hands to useBlockingManager:
one blocker id for the whole batch. -/
def useBlockingQueries_syncInput (batchId : String) (cfg : QueriesBlockingConfig)
    (results : List QueryState) : SyncInput :=
  { blockerId := batchId
    shouldBlock := useBlockingQueries_shouldBlock cfg results
    scope := cfg.scope
    reason := useBlockingQueries_reason cfg results
    priority := cfg.priority.getD 10
    timeout := cfg.timeout
    onTimeout := cfg.onTimeout }

/-- The shouldBlock derivation of useBlockingMutation: pending always blocks, error
blocks when the onError variant is chosen. -/
def useBlockingMutation_shouldBlock (cfg : MutationBlockingConfig)
    (m : MutationState) : Bool :=
  m.isPending || (cfg.onError && m.isError)

/-- The single read trigger formula in the words of the spec: shouldBlock is the
logical OR of the enabled trigger conditions, loading first fetch, fetching
background refresh excluding loading, error. -/
def singleReadShouldBlockSpec (onLoading onFetching onError : Bool)
    (q : QueryState) : Prop :=
  (onLoading = true ∧ q.isLoading = true) ∨
    (onFetching = true ∧ q.isFetching = true ∧ q.isLoading = false) ∨
    (onError = true ∧ q.isError = true)

/-- The paginated read trigger formula in the words of the spec. -/
def paginatedReadShouldBlockSpec (onLoading onFetching onError : Bool)
    (q : InfiniteQueryState) : Prop :=
  (onLoading = true ∧ q.isLoading = true) ∨
    (onFetching = true ∧
      (q.isFetching = true ∨ q.isFetchingNextPage = true ∨
        q.isFetchingPreviousPage = true) ∧ q.isLoading = false) ∨
    (onError = true ∧ q.isError = true)

/-- One batch member satisfies some enabled trigger condition, in the words of the
spec for the parallel read batch. -/
def memberTriggered (cfg : QueriesBlockingConfig) (r : QueryState) : Prop :=
  (cfg.onLoading.getD true = true ∧ r.isLoading = true) ∨
    (cfg.onFetching.getD false = true ∧ r.isFetching = true ∧ r.isLoading = false) ∨
    (cfg.onError.getD false = true ∧ r.isError = true)

theorem syncEffect_wasBlocked (inp : SyncInput) (t : Nat) (s : ManagerState) :
    (syncEffect inp t s).wasBlocked = inp.shouldBlock := by
  cases hb : inp.shouldBlock <;> cases hw : s.wasBlocked <;>
    simp [syncEffect, hb, hw]

theorem syncEffect_isSome (inp : SyncInput) (t : Nat) (s : ManagerState)
    (h : (s.registry inp.blockerId).isSome = s.wasBlocked) :
    ((syncEffect inp t s).registry inp.blockerId).isSome = inp.shouldBlock := by
  cases hb : inp.shouldBlock <;> cases hw : s.wasBlocked <;>
    simp_all [syncEffect, addBlocker, updateBlocker, removeBlocker]

theorem syncEffect_frame (inp : SyncInput) (t : Nat) (s : ManagerState) (j : String)
    (hj : j ≠ inp.blockerId) :
    (syncEffect inp t s).registry j = s.registry j := by
  cases hb : inp.shouldBlock <;> cases hw : s.wasBlocked <;>
    simp [syncEffect, addBlocker, updateBlocker, removeBlocker, hb, hw, hj]

theorem cleanupAfterSync_resets (c : SyncInput) (t : Nat) (s : ManagerState)
    (h : (s.registry c.blockerId).isSome = s.wasBlocked) :
    (cleanupEffect c.blockerId (syncEffect c t s)).wasBlocked = false
    ∧ (cleanupEffect c.blockerId (syncEffect c t s)).registry c.blockerId = none
    ∧ ∀ j, j ≠ c.blockerId →
        (cleanupEffect c.blockerId (syncEffect c t s)).registry j = s.registry j := by
  have hnone : s.wasBlocked = false → s.registry c.blockerId = none := by
    intro hw
    rw [hw] at h
    cases hrr : s.registry c.blockerId with
    | none => rfl
    | some e => rw [hrr] at h; simp at h
  cases hb : c.shouldBlock <;> cases hw : s.wasBlocked <;>
    refine ⟨?_, ?_, fun j hj => ?_⟩ <;>
    simp_all [cleanupEffect, syncEffect, addBlocker, updateBlocker, removeBlocker]

theorem runReact_loop_invariant (id : String) :
    ∀ (calls : List SyncInput) (t : Nat) (s : ManagerState),
      (∀ c ∈ calls, c.blockerId = id) →
      (s.registry id).isSome = s.wasBlocked →
      ((((runReact t s calls).registry id).isSome = (runReact t s calls).wasBlocked)
        ∧ (runReact t s calls).wasBlocked =
            (match calls.getLast? with
             | some c => c.shouldBlock
             | none => s.wasBlocked)
        ∧ ∀ j, j ≠ id → (runReact t s calls).registry j = s.registry j)
  | [], t, s, _, hinv => ⟨hinv, rfl, fun _ _ => rfl⟩
  | [c], t, s, hid, hinv => by
    have hc : c.blockerId = id := hid c (by simp)
    refine ⟨?_, ?_, fun j hj => ?_⟩
    · show ((syncEffect c t s).registry id).isSome = (syncEffect c t s).wasBlocked
      rw [syncEffect_wasBlocked, ← hc]
      exact syncEffect_isSome c t s (by rw [hc]; exact hinv)
    · show (syncEffect c t s).wasBlocked = _
      simp [syncEffect_wasBlocked]
    · show (syncEffect c t s).registry j = s.registry j
      exact syncEffect_frame c t s j (by rw [hc]; exact hj)
  | c :: d :: rest, t, s, hid, hinv => by
    have hc : c.blockerId = id := hid c (by simp)
    have hstep := cleanupAfterSync_resets c t s (by rw [hc]; exact hinv)
    have hinv₂ : ((cleanupEffect c.blockerId (syncEffect c t s)).registry id).isSome
        = (cleanupEffect c.blockerId (syncEffect c t s)).wasBlocked := by
      rw [hstep.1, ← hc, hstep.2.1]
      rfl
    obtain ⟨ih₁, ih₂, ih₃⟩ :=
      runReact_loop_invariant id (d :: rest) (t + 1)
        (cleanupEffect c.blockerId (syncEffect c t s))
        (fun x hx => hid x (List.mem_cons_of_mem c hx)) hinv₂
    have hunfold : runReact t s (c :: d :: rest) =
        runReact (t + 1) (cleanupEffect c.blockerId (syncEffect c t s)) (d :: rest) := rfl
    refine ⟨by rw [hunfold]; exact ih₁, ?_, fun j hj => ?_⟩
    · rw [hunfold, ih₂, List.getLast?_cons_cons]
      cases hgl : (d :: rest).getLast? with
      | none => rw [List.getLast?_eq_none_iff] at hgl; exact absurd hgl (by simp)
      | some x => rfl
    · rw [hunfold, ih₃ j hj]
      exact hstep.2.2 j (by rw [hc]; exact hj)

/-- C1: for every sequence of effect runs of one component instance under the real
React sequencing, where the cleanup of the previous run executes before every re-run,
all runs for the own blocker identity of the instance and starting from a registry
without an entry for that identity, the registry holds an entry for the identity
exactly when the most recent run set shouldBlock to true; and after the teardown
cleanup of the instance no entry for the identity remains, regardless of the last
seen shouldBlock value. -/
theorem useBlockingManager_registry_iff_lastBlocking
    (calls : List SyncInput) (id : String) (R : Registry) (t : Nat)
    (hid : ∀ c ∈ calls, c.blockerId = id) (h0 : R id = none) :
    ((((runReact t ⟨false, R⟩ calls).registry id).isSome) ↔
        (∃ c, calls.getLast? = some c ∧ c.shouldBlock = true))
      ∧ (cleanupEffect id (runReact t ⟨false, R⟩ calls)).registry id = none := by
  obtain ⟨h1, h2, _⟩ :=
    runReact_loop_invariant id calls t ⟨false, R⟩ hid (by simp [h0])
  constructor
  · rw [h1, h2]
    cases hl : calls.getLast? with
    | none => simp
    | some c => simp
  · cases hw : (runReact t ⟨false, R⟩ calls).wasBlocked with
    | true => simp [cleanupEffect, hw, removeBlocker]
    | false =>
      have habs : ((runReact t ⟨false, R⟩ calls).registry id).isSome = false := by
        rw [h1, hw]
      simp only [cleanupEffect, hw, Bool.false_eq_true, if_false]
      cases hrr : (runReact t ⟨false, R⟩ calls).registry id with
      | none => rfl
      | some e => rw [hrr] at habs; simp at habs

/-- Closed witness for C1: under the React sequencing a blocking run followed by a
non blocking run leaves no entry, and after one blocking run the entry exists until
the teardown cleanup removes it. -/
theorem useBlockingManager_registry_iff_lastBlocking_witness :
    (((runReact 0 ⟨false, fun _ => none⟩
          [⟨"q", true, none, "r", 10, none, none⟩]).registry "q").isSome ↔
        (∃ c, [(⟨"q", true, none, "r", 10, none, none⟩ : SyncInput)].getLast? = some c
            ∧ c.shouldBlock = true))
      ∧ (cleanupEffect "q" (runReact 0 ⟨false, fun _ => none⟩
          [⟨"q", true, none, "r", 10, none, none⟩])).registry "q" = none :=
  useBlockingManager_registry_iff_lastBlocking
    [⟨"q", true, none, "r", 10, none, none⟩] "q" (fun _ => none) 0
    (by intro c hc; simp at hc; simp [hc]) rfl

theorem runContract_blocking_updates (id : String) :
    ∀ (calls : List SyncInput) (t : Nat) (s : ManagerState) (e : BlockerEntry),
      (∀ c ∈ calls, c.blockerId = id) → (∀ c ∈ calls, c.shouldBlock = true) →
      s.wasBlocked = true → s.registry id = some e →
      ∃ e₂, (runContract t s calls).registry id = some e₂
        ∧ e₂.createdAt = e.createdAt ∧ e₂.timeout = e.timeout
        ∧ e₂.onTimeout = e.onTimeout
        ∧ e₂.scope = (match calls.getLast? with | some c => c.scope | none => e.scope)
        ∧ e₂.reason = (match calls.getLast? with | some c => c.reason | none => e.reason)
        ∧ e₂.priority =
            (match calls.getLast? with | some c => c.priority | none => e.priority)
  | [], t, s, e, _, _, _, hreg => ⟨e, hreg, rfl, rfl, rfl, rfl, rfl, rfl⟩
  | c :: rest, t, s, e, hid, hb, hw, hreg => by
    have hc : c.blockerId = id := hid c (by simp)
    have hcb : c.shouldBlock = true := hb c (by simp)
    have hstep : runContract t s (c :: rest) = runContract (t + 1) (syncEffect c t s) rest := rfl
    have hw₂ : (syncEffect c t s).wasBlocked = true := by
      rw [syncEffect_wasBlocked, hcb]
    have hreg₂ : (syncEffect c t s).registry id =
        some { e with scope := c.scope, reason := c.reason, priority := c.priority } := by
      simp [syncEffect, hcb, hw, updateBlocker, hc, hreg]
    obtain ⟨e₂, he₂, hcr, hto, hot, hsc, hre, hpr⟩ :=
      runContract_blocking_updates id rest (t + 1) (syncEffect c t s)
        { e with scope := c.scope, reason := c.reason, priority := c.priority }
        (fun x hx => hid x (by simp [hx])) (fun x hx => hb x (by simp [hx])) hw₂ hreg₂
    refine ⟨e₂, by rw [hstep]; exact he₂, hcr, hto, hot, ?_, ?_, ?_⟩ <;>
      (cases rest with
       | nil => simp_all
       | cons d ds =>
         rw [List.getLast?_cons_cons]
         cases hgl : (d :: ds).getLast? with
         | none => rw [List.getLast?_eq_none_iff] at hgl; exact absurd hgl (by simp)
         | some x => simp_all)

/-- Supporting result for the C2 determination: under the contract sequencing (the
effect body alone on every render, cleanup only at teardown) the body logic realizes
the spec intent — only the first blocking call creates the entry, the final entry
keeps the creation moment, timeout and onTimeout of the first call, and later calls
update scope, reason and priority in place. The program does not execute this
sequencing; see useBlockingManager_timeout_restarted_on_rerender. -/
theorem contract_timeout_set_once
    (c₀ : SyncInput) (calls : List SyncInput) (id : String) (R : Registry) (t : Nat)
    (hid₀ : c₀.blockerId = id) (hid : ∀ c ∈ calls, c.blockerId = id)
    (hb₀ : c₀.shouldBlock = true) (hb : ∀ c ∈ calls, c.shouldBlock = true) :
    ∃ e, (runContract t ⟨false, R⟩ (c₀ :: calls)).registry id = some e
      ∧ e.createdAt = t ∧ e.timeout = c₀.timeout ∧ e.onTimeout = c₀.onTimeout
      ∧ e.scope = (calls.getLastD c₀).scope
      ∧ e.reason = (calls.getLastD c₀).reason
      ∧ e.priority = (calls.getLastD c₀).priority := by
  have hstep : runContract t ⟨false, R⟩ (c₀ :: calls) =
      runContract (t + 1) (syncEffect c₀ t ⟨false, R⟩) calls := rfl
  have hreg₁ : (syncEffect c₀ t ⟨false, R⟩).registry id =
      some { scope := c₀.scope, reason := c₀.reason, priority := c₀.priority,
             timeout := c₀.timeout, onTimeout := c₀.onTimeout, createdAt := t } := by
    simp [syncEffect, hb₀, addBlocker, hid₀]
  have hw₁ : (syncEffect c₀ t ⟨false, R⟩).wasBlocked = true := by
    rw [syncEffect_wasBlocked, hb₀]
  obtain ⟨e₂, he₂, hcr, hto, hot, hsc, hre, hpr⟩ :=
    runContract_blocking_updates id calls (t + 1) (syncEffect c₀ t ⟨false, R⟩)
      { scope := c₀.scope, reason := c₀.reason, priority := c₀.priority,
        timeout := c₀.timeout, onTimeout := c₀.onTimeout, createdAt := t }
      hid hb hw₁ hreg₁
  refine ⟨e₂, by rw [hstep]; exact he₂, hcr, hto, hot, ?_, ?_, ?_⟩ <;>
    rw [List.getLastD_eq_getLast?] <;>
    cases hl : calls.getLast? <;> simp_all

/-- C2: the claim states the spec intent but the program violates it. Under the real
React sequencing the cleanup of the previous effect run executes before every re-run,
removes the entry and clears the private flag, so the second blocking run re-creates
the entry: on the inputs below the final entry carries the creation moment 1 and the
timeout and onTimeout of the second call, so a metadata change restarts the timeout
clock and the update branch of the body never runs. The second conjunct shows the
same inputs under the contract sequencing keeping the first timeout and the creation
moment 0, so the body logic itself realizes the intent and the slip is the
unconditional removal in the cleanup that React runs on every dep change. -/
theorem useBlockingManager_timeout_restarted_on_rerender :
    (runReact 0 ⟨false, fun _ => none⟩
        [⟨"q", true, none, "r1", 10, some 50, some 1⟩,
         ⟨"q", true, none, "r2", 10, some 99, some 2⟩]).registry "q"
      = some ⟨none, "r2", 10, some 99, some 2, 1⟩
    ∧ (runContract 0 ⟨false, fun _ => none⟩
        [⟨"q", true, none, "r1", 10, some 50, some 1⟩,
         ⟨"q", true, none, "r2", 10, some 99, some 2⟩]).registry "q"
      = some ⟨none, "r2", 10, some 50, some 1, 0⟩ := by
  constructor <;> rfl

/-- C3: a synchronize call with shouldBlock false, made while the private holding
flag of the instance is false, performs no registry operation at all: the manager
state, registry included, is returned unchanged. -/
theorem useBlockingManager_noop_when_not_holding (inp : SyncInput) (t : Nat)
    (s : ManagerState) (hb : inp.shouldBlock = false) (hw : s.wasBlocked = false) :
    syncEffect inp t s = s := by
  simp [syncEffect, hb, hw]

/-- Closed witness for C3: a non blocking call on a fresh instance leaves the state
untouched. -/
theorem useBlockingManager_noop_when_not_holding_witness :
    syncEffect
        { blockerId := "q", shouldBlock := false, scope := none, reason := "r",
          priority := 10, timeout := none, onTimeout := none } 0
        ⟨false, fun _ => none⟩ = ⟨false, fun _ => none⟩ :=
  useBlockingManager_noop_when_not_holding
    { blockerId := "q", shouldBlock := false, scope := none, reason := "r",
      priority := 10, timeout := none, onTimeout := none } 0
    ⟨false, fun _ => none⟩ rfl rfl

theorem canonicalizeFields_eq_map (l : List (String × KeyPart)) :
    canonicalizeFields l = l.map (fun f => (f.1, canonicalize f.2)) := by
  induction l with
  | nil => simp [canonicalizeFields]
  | cons f rest ih => simp [canonicalizeFields, ih]

theorem map_fst_canonicalizeFields (l : List (String × KeyPart)) :
    (canonicalizeFields l).map Prod.fst = l.map Prod.fst := by
  rw [canonicalizeFields_eq_map, List.map_map]
  rfl

theorem sortFields_eq_of_perm {l₁ l₂ : List (String × KeyPart)}
    (hp : l₁.Perm l₂) (hnd : (l₁.map Prod.fst).Nodup) :
    sortFields l₁ = sortFields l₂ := by
  haveI htot : IsTotal (String × KeyPart) (fun f g => f.1 ≤ g.1) :=
    ⟨fun a b => le_total a.1 b.1⟩
  haveI htr : IsTrans (String × KeyPart) (fun f g => f.1 ≤ g.1) :=
    ⟨fun _ _ _ h₁ h₂ => le_trans h₁ h₂⟩
  haveI hanti : IsAntisymm (String × KeyPart) (fun f g => f.1 < g.1 ∨ f = g) := by
    constructor
    rintro a b (h₁ | h₁) (h₂ | h₂)
    · exact absurd h₂ (lt_asymm h₁)
    · exact h₂.symm
    · exact h₁
    · exact h₁
  have hperm : (sortFields l₁).Perm (sortFields l₂) :=
    ((List.perm_insertionSort _ l₁).trans hp).trans
      (List.perm_insertionSort _ l₂).symm
  have hup : ∀ l : List (String × KeyPart), (l.map Prod.fst).Nodup →
      List.Sorted (fun f g : String × KeyPart => f.1 < g.1 ∨ f = g) (sortFields l) := by
    intro l hl
    have hs : List.Sorted (fun f g : String × KeyPart => f.1 ≤ g.1) (sortFields l) :=
      List.sorted_insertionSort _ l
    have hls : ((sortFields l).map Prod.fst).Nodup :=
      (((List.perm_insertionSort _ l).map Prod.fst).nodup_iff).mpr hl
    have hne : List.Pairwise (fun f g : String × KeyPart => f.1 ≠ g.1) (sortFields l) :=
      (List.pairwise_map).mp hls
    exact (hs.and hne).imp (fun h => Or.inl (lt_of_le_of_ne h.1 h.2))
  have hnd₂ : (l₂.map Prod.fst).Nodup := ((hp.map Prod.fst).nodup_iff).mp hnd
  exact List.eq_of_perm_of_sorted hperm (hup l₁ hnd) (hup l₂ hnd₂)

mutual
theorem keyEquiv_canonicalize {a b : KeyPart} (h : KeyEquiv a b) :
    canonicalize a = canonicalize b := by
  cases h with
  | null => rfl
  | bool b => rfl
  | num n => rfl
  | str s => rfl
  | arr h₁ =>
    simp only [canonicalize]
    rw [keyEquivList_canonicalize h₁]
  | obj h₁ h₂ h₃ =>
    rename_i fs gs ks
    simp only [canonicalize]
    have hfk : canonicalizeFields fs = canonicalizeFields ks :=
      keyEquivFields_canonicalize h₁
    have hkg : (canonicalizeFields ks).Perm (canonicalizeFields gs) := by
      rw [canonicalizeFields_eq_map, canonicalizeFields_eq_map]
      exact h₂.map _
    have hnd : ((canonicalizeFields fs).map Prod.fst).Nodup := by
      rw [map_fst_canonicalizeFields]
      exact h₃
    rw [sortFields_eq_of_perm (hfk ▸ hkg) hnd]

theorem keyEquivList_canonicalize {as bs : List KeyPart} (h : KeyEquivList as bs) :
    canonicalizeList as = canonicalizeList bs := by
  cases h with
  | nil => rfl
  | cons h₁ h₂ =>
    simp only [canonicalizeList]
    rw [keyEquiv_canonicalize h₁, keyEquivList_canonicalize h₂]

theorem keyEquivFields_canonicalize {fs gs : List (String × KeyPart)}
    (h : KeyEquivFields fs gs) :
    canonicalizeFields fs = canonicalizeFields gs := by
  cases h with
  | nil => rfl
  | cons h₁ h₂ h₃ =>
    simp only [canonicalizeFields]
    rw [keyEquiv_canonicalize h₂, keyEquivFields_canonicalize h₃, h₁]
end

/-- C4: the deterministic blocker id has the form of the namespace, a dash and the
canonical hash, and two structurally equal keys (equal sequences of primitives and
plain objects, objects compared regardless of the insertion order of their
properties) receive identical identity strings. -/
theorem useQueryBlockerId_structural (pre : String) (k₁ k₂ : List KeyPart)
    (h : KeyEquivList k₁ k₂) :
    useQueryBlockerId pre k₁ = pre ++ "-" ++ hashKey k₁
      ∧ useQueryBlockerId pre k₁ = useQueryBlockerId pre k₂ := by
  refine ⟨rfl, ?_⟩
  have hc : canonicalize (.arr k₁) = canonicalize (.arr k₂) :=
    keyEquiv_canonicalize (KeyEquiv.arr h)
  simp [useQueryBlockerId, hashKey, hc]

/-- Closed witness for C4: the keys with the object properties id and type written in
the two insertion orders receive the same identity. -/
theorem useQueryBlockerId_structural_witness :
    useQueryBlockerId "query"
        [.str "user", .obj [("id", .num 123), ("type", .str "x")]]
      = useQueryBlockerId "query"
        [.str "user", .obj [("type", .str "x"), ("id", .num 123)]] :=
  (useQueryBlockerId_structural "query"
    [.str "user", .obj [("id", .num 123), ("type", .str "x")]]
    [.str "user", .obj [("type", .str "x"), ("id", .num 123)]]
    (KeyEquivList.cons (KeyEquiv.str "user")
      (KeyEquivList.cons
        (KeyEquiv.obj
          (KeyEquivFields.cons rfl (KeyEquiv.num 123)
            (KeyEquivFields.cons rfl (KeyEquiv.str "x") KeyEquivFields.nil))
          (List.Perm.swap ("type", KeyPart.str "x") ("id", KeyPart.num 123) [])
          (by decide))
        KeyEquivList.nil))).2

/-- C5: the reason resolver returns the reason of the first entry, in list order,
whose condition is true and whose reason is defined, and the default reason when no
such entry exists; being a Lean function over total data it is pure and total. -/
theorem resolveBlockingReason_first_match (config : ReasonConfig) :
    resolveBlockingReason config =
      match config.stateReasons.find? (fun sr => sr.condition && sr.reason.isSome) with
      | some sr => sr.reason.getD config.defaultReason
      | none => config.defaultReason := by
  obtain ⟨d, srs⟩ := config
  simp only [resolveBlockingReason]
  induction srs with
  | nil => rfl
  | cons sr rest ih =>
    cases hc : sr.condition <;> rcases hr : sr.reason with _ | r <;>
      simp [resolveLoop, List.find?_cons, hc, hr, ih]

/-- C6: for the single read adapter, shouldBlock holds exactly when loading with the
onLoading toggle on, or fetching but not loading with the onFetching toggle on, or in
error with the onError toggle on; the toggles default to true, false and false when
omitted. -/
theorem useBlockingQuery_shouldBlock_spec (cfg : QueryBlockingConfig) (q : QueryState) :
    useBlockingQuery_shouldBlock cfg q = true ↔
      singleReadShouldBlockSpec (cfg.onLoading.getD true) (cfg.onFetching.getD false)
        (cfg.onError.getD false) q := by
  obtain ⟨ql, qf, qe⟩ := q
  simp only [useBlockingQuery_shouldBlock, singleReadShouldBlockSpec]
  cases hL : cfg.onLoading.getD true <;> cases hF : cfg.onFetching.getD false <;>
    cases hE : cfg.onError.getD false <;> cases ql <;> cases qf <;> cases qe <;> simp

/-- C7: for the paginated read adapter, the fetching condition is any of background
refresh, next page fetch or previous page fetch while not loading, and shouldBlock is
the OR of the enabled triggers. -/
theorem useBlockingInfiniteQuery_shouldBlock_spec (cfg : InfiniteQueryBlockingConfig)
    (q : InfiniteQueryState) :
    useBlockingInfiniteQuery_shouldBlock cfg q = true ↔
      paginatedReadShouldBlockSpec (cfg.onLoading.getD true) (cfg.onFetching.getD false)
        (cfg.onError.getD false) q := by
  obtain ⟨ql, qf, qfn, qfp, qe⟩ := q
  simp only [useBlockingInfiniteQuery_shouldBlock, paginatedReadShouldBlockSpec,
    isFetchingButNotLoading]
  cases hL : cfg.onLoading.getD true <;> cases hF : cfg.onFetching.getD false <;>
    cases hE : cfg.onError.getD false <;> cases ql <;> cases qf <;> cases qfn <;>
    cases qfp <;> cases qe <;> simp

/-- C8: the parallel read batch blocks exactly when at least one member satisfies
some enabled trigger condition, and the single synchronize payload of the batch can
only ever touch the one batch identity in the registry, never one entry per
member. -/
theorem useBlockingQueries_any_member (cfg : QueriesBlockingConfig)
    (results : List QueryState) (batchId : String) (t : Nat) (s : ManagerState) :
    (useBlockingQueries_shouldBlock cfg results = true ↔
        ∃ r ∈ results, memberTriggered cfg r)
      ∧ ∀ j, j ≠ batchId →
          (syncEffect (useBlockingQueries_syncInput batchId cfg results) t s).registry j
            = s.registry j := by
  constructor
  · have hl : (0 < loadingCount results) ↔ ∃ r ∈ results, r.isLoading = true := by
      simp [loadingCount, ← List.countP_eq_length_filter, List.countP_pos_iff]
    have hf : (0 < fetchingCount results) ↔
        ∃ r ∈ results, r.isFetching = true ∧ r.isLoading = false := by
      simp [fetchingCount, ← List.countP_eq_length_filter, List.countP_pos_iff,
        Bool.and_eq_true, Bool.not_eq_true']
    have he : (0 < errorCount results) ↔ ∃ r ∈ results, r.isError = true := by
      simp [errorCount, ← List.countP_eq_length_filter, List.countP_pos_iff]
    simp only [useBlockingQueries_shouldBlock, Bool.or_eq_true, Bool.and_eq_true,
      decide_eq_true_eq, hl, hf, he, memberTriggered]
    constructor
    · rintro ((⟨hL, r, hr, hP⟩ | ⟨hF, r, hr, hP⟩) | ⟨hE, r, hr, hP⟩)
      · exact ⟨r, hr, Or.inl ⟨hL, hP⟩⟩
      · exact ⟨r, hr, Or.inr (Or.inl ⟨hF, hP.1, hP.2⟩)⟩
      · exact ⟨r, hr, Or.inr (Or.inr ⟨hE, hP⟩)⟩
    · rintro ⟨r, hr, (⟨hL, hP⟩ | ⟨hF, hP₁, hP₂⟩ | ⟨hE, hP⟩)⟩
      · exact Or.inl (Or.inl ⟨hL, r, hr, hP⟩)
      · exact Or.inl (Or.inr ⟨hF, r, hr, hP₁, hP₂⟩)
      · exact Or.inr ⟨hE, r, hr, hP⟩
  · intro j hj
    exact syncEffect_frame _ t s j (by simpa [useBlockingQueries_syncInput] using hj)

/-- Closed witness for C8: with a batch of three members, one still loading, the
payload of the batch leaves every other registry identity untouched. -/
theorem useBlockingQueries_any_member_witness :
    (syncEffect
        (useBlockingQueries_syncInput "batch"
          ⟨none, none, none, none, none, none, none, none, none, none, none⟩
          [⟨false, false, false⟩, ⟨false, false, false⟩, ⟨true, true, false⟩])
        0 ⟨false, fun _ => none⟩).registry "other"
      = (⟨false, fun _ => none⟩ : ManagerState).registry "other" :=
  (useBlockingQueries_any_member
    ⟨none, none, none, none, none, none, none, none, none, none, none⟩
    [⟨false, false, false⟩, ⟨false, false, false⟩, ⟨true, true, false⟩]
    "batch" 0 ⟨false, fun _ => none⟩).2 "other" (by decide)

/-- C9: with a mutation key the write adapter id is the deterministic id, the
namespace followed by the canonical hash of the key; without one it falls back to the
per instance token, and two instances with distinct tokens receive distinct
identities. -/
theorem useMutationBlockerId_spec :
    (∀ (pre : String) (k : List KeyPart) (rid : String),
        useMutationBlockerId pre (some k) rid = pre ++ "-" ++ hashKey k)
      ∧ ∀ (pre rid₁ rid₂ : String), rid₁ ≠ rid₂ →
          useMutationBlockerId pre none rid₁ ≠ useMutationBlockerId pre none rid₂ := by
  constructor
  · intro pre k rid; rfl
  · intro pre rid₁ rid₂ hne heq
    apply hne
    have hd := congrArg String.data heq
    simp only [useMutationBlockerId, String.data_append, List.append_assoc] at hd
    exact String.ext (List.append_cancel_left (List.append_cancel_left hd))

/-- Closed witness for C9: two keyless instances with distinct tokens get distinct
identities. -/
theorem useMutationBlockerId_spec_witness :
    useMutationBlockerId "mutation" none ":r1:" ≠ useMutationBlockerId "mutation" none ":r2:" :=
  useMutationBlockerId_spec.2 "mutation" ":r1:" ":r2:" (by decide)

/-- C10: the write adapter blocks whenever the mutation is pending, for every
configuration of the discriminated union; the configuration shape offers no toggle
that could disable pending blocking. -/
theorem useBlockingMutation_pending_always_blocks (cfg : MutationBlockingConfig)
    (m : MutationState) (h : m.isPending = true) :
    useBlockingMutation_shouldBlock cfg m = true := by
  simp [useBlockingMutation_shouldBlock, h]

/-- Closed witness for C10: a pending mutation blocks under the default
configuration. -/
theorem useBlockingMutation_pending_always_blocks_witness :
    useBlockingMutation_shouldBlock
        (.withoutError none none none none none none) ⟨true, false⟩ = true :=
  useBlockingMutation_pending_always_blocks
    (.withoutError none none none none none none) ⟨true, false⟩ rfl

end ActionGuard
